import Mathlib

/-!
# Verification of the snapshot-diffing scraper core

A shallow embedding, in Lean 4, of the content-addressed change-detection
program in `src/scraper.py`, together with proofs of the specification's
claims about it.

The embedding covers:

* `get_hash` — the record fingerprint: SHA-256 over the UTF-8 bytes of a
  string, rendered as a lowercase hex digest (`hashlib.sha256(...).hexdigest()`).
  SHA-256 is implemented here in full (FIPS 180-4), over byte lists as `Nat`,
  with 32-bit arithmetic written as `Nat` operations reduced mod `2^32`.
* the per-item extraction step of `scrape_page` — strip whitespace, substitute
  `""` for a missing element, fingerprint `name + "|" + price`;
* `detect_deltas` — fingerprint-set difference and row filtering;
* the archival flow of `main` — a filesystem modelled as an association list
  from path to table, with the write-ordering and conditional delta writes of
  the source, and the process exit codes of the `__main__` guard;
* the tabular (CSV) artifact format as produced by `DataFrame.to_csv` and
  re-read by `pandas.read_csv` with default options, including the reader's
  NA-marker and dtype coercions, for the round-trip claim.
-/

namespace Scraper

/-! ## 32-bit arithmetic over `Nat`

SHA-256 works on 32-bit words. We represent a word as a `Nat` below `2 ^ 32`
and reduce explicitly after every arithmetic operation. -/

/-- Reduce to a 32-bit word. -/
def w32 (x : Nat) : Nat := x % 4294967296

/-- Right rotation of a 32-bit word by `n` bits. -/
def rotr (n x : Nat) : Nat := w32 (x / 2 ^ n + x % 2 ^ n * 2 ^ (32 - n))

/-- Logical right shift by `n` bits. -/
def shr (n x : Nat) : Nat := x / 2 ^ n

/-- Bitwise complement within 32 bits (valid for `x < 2 ^ 32`). -/
def not32 (x : Nat) : Nat := 4294967295 - x

/-! ## SHA-256 (FIPS 180-4)

This is the function behind Python's `hashlib.sha256`: `scraper.py` line 20
computes `hashlib.sha256(value.encode("utf-8")).hexdigest()`. -/

/-- The SHA-256 round constants `K` (fractional parts of the cube roots of the
first 64 primes). -/
def K : List Nat :=
  [1116352408, 1899447441, 3049323471, 3921009573, 961987163, 1508970993,
   2453635748, 2870763221, 3624381080, 310598401, 607225278, 1426881987,
   1925078388, 2162078206, 2614888103, 3248222580, 3835390401, 4022224774,
   264347078, 604807628, 770255983, 1249150122, 1555081692, 1996064986,
   2554220882, 2821834349, 2952996808, 3210313671, 3336571891, 3584528711,
   113926993, 338241895, 666307205, 773529912, 1294757372, 1396182291,
   1695183700, 1986661051, 2177026350, 2456956037, 2730485921, 2820302411,
   3259730800, 3345764771, 3516065817, 3600352804, 4094571909, 275423344,
   430227734, 506948616, 659060556, 883997877, 958139571, 1322822218,
   1537002063, 1747873779, 1955562222, 2024104815, 2227730452, 2361852424,
   2428436474, 2756734187, 3204031479, 3329325298]

/-- The SHA-256 initial hash value `H0` (fractional parts of the square roots
of the first 8 primes). -/
def H0 : List Nat :=
  [1779033703, 3144134277, 1013904242, 2773480762, 1359893119, 2600822924,
   528734635, 1541459225]

/-- SHA-256 choice function `Ch(e, f, g)`. -/
def ch (e f g : Nat) : Nat := Nat.xor (Nat.land e f) (Nat.land (not32 e) g)

/-- SHA-256 majority function `Maj(a, b, c)`. -/
def maj (a b c : Nat) : Nat :=
  Nat.xor (Nat.xor (Nat.land a b) (Nat.land a c)) (Nat.land b c)

/-- SHA-256 big sigma 0. -/
def bigS0 (a : Nat) : Nat := Nat.xor (Nat.xor (rotr 2 a) (rotr 13 a)) (rotr 22 a)

/-- SHA-256 big sigma 1. -/
def bigS1 (e : Nat) : Nat := Nat.xor (Nat.xor (rotr 6 e) (rotr 11 e)) (rotr 25 e)

/-- SHA-256 small sigma 0. -/
def smallS0 (x : Nat) : Nat := Nat.xor (Nat.xor (rotr 7 x) (rotr 18 x)) (shr 3 x)

/-- SHA-256 small sigma 1. -/
def smallS1 (x : Nat) : Nat := Nat.xor (Nat.xor (rotr 17 x) (rotr 19 x)) (shr 10 x)

/-- Group a byte list into big-endian 32-bit words (4 bytes per word). -/
def toWords : List Nat → List Nat
  | b0 :: b1 :: b2 :: b3 :: rest =>
      (b0 * 16777216 + b1 * 65536 + b2 * 256 + b3) :: toWords rest
  | _ => []

/-- One message-schedule extension step: append
`w[i] = s1 w[i-2] + w[i-7] + s0 w[i-15] + w[i-16]` (mod `2^32`). -/
def stepW (ws : List Nat) : List Nat :=
  ws ++ [w32 (smallS1 (ws.getD (ws.length - 2) 0) + ws.getD (ws.length - 7) 0 +
              smallS0 (ws.getD (ws.length - 15) 0) + ws.getD (ws.length - 16) 0)]

/-- Extend the message schedule `n` times. -/
def schedule : Nat → List Nat → List Nat
  | 0, ws => ws
  | n + 1, ws => schedule n (stepW ws)

/-- One SHA-256 compression round on the working state `[a,b,c,d,e,f,g,h]`
with a round constant and a schedule word. -/
def round (st : List Nat) (kw : Nat × Nat) : List Nat :=
  match st with
  | [a, b, c, d, e, f, g, h] =>
      let t1 := w32 (h + bigS1 e + ch e f g + kw.1 + kw.2)
      let t2 := w32 (bigS0 a + maj a b c)
      [w32 (t1 + t2), a, b, c, w32 (d + t1), e, f, g]
  | other => other

/-- Compress one 64-byte block into the running hash state. -/
def compress (H : List Nat) (block : List Nat) : List Nat :=
  let ws := schedule 48 (toWords block)
  let st := (K.zip ws).foldl round H
  (H.zip st).map (fun p => w32 (p.1 + p.2))

/-- Big-endian 8-byte encoding of a length in bits. -/
def lenBE8 (n : Nat) : List Nat :=
  [n / 72057594037927936 % 256, n / 281474976710656 % 256,
   n / 1099511627776 % 256, n / 4294967296 % 256,
   n / 16777216 % 256, n / 65536 % 256, n / 256 % 256, n % 256]

/-- Split a list into consecutive 64-element chunks (fuel-indexed so that the
definition reduces by structural recursion; the fuel bounds the chunk count). -/
def chunks64Aux : Nat → List Nat → List (List Nat)
  | 0, _ => []
  | _, [] => []
  | fuel + 1, l => l.take 64 :: chunks64Aux fuel (l.drop 64)

/-- Split a list into consecutive 64-element chunks. -/
def chunks64 (l : List Nat) : List (List Nat) :=
  chunks64Aux l.length l

/-- Big-endian bytes of one 32-bit word. -/
def wordBytes (w : Nat) : List Nat :=
  [w / 16777216 % 256, w / 65536 % 256, w / 256 % 256, w % 256]

/-- SHA-256 of a byte list: pad to a multiple of 64 bytes with `0x80`, zeros
and the 64-bit big-endian bit length, then compress block by block. Returns
the 32 digest bytes. -/
def sha256 (msg : List Nat) : List Nat :=
  let L := msg.length
  let padded := msg ++ 128 :: (List.replicate ((64 - (L + 9) % 64) % 64) 0 ++ lenBE8 (8 * L))
  ((chunks64 padded).foldl compress H0).flatMap wordBytes

/-- Hex digit characters, lowercase, as `hexdigest` prints them. -/
def hexChar (n : Nat) : Char :=
  "0123456789abcdef".data.getD n '0'

/-- Lowercase hex string of a byte list (`hexdigest`). -/
def hexdigest (bs : List Nat) : String :=
  String.mk (bs.flatMap (fun b => [hexChar (b / 16), hexChar (b % 16)]))

/-! ## UTF-8 encoding

Python's `str.encode("utf-8")`: each code point becomes 1 to 4 bytes. -/

/-- UTF-8 bytes of one code point. -/
def utf8Char (n : Nat) : List Nat :=
  if n < 128 then [n]
  else if n < 2048 then [192 + n / 64, 128 + n % 64]
  else if n < 65536 then [224 + n / 4096, 128 + n / 64 % 64, 128 + n % 64]
  else [240 + n / 262144, 128 + n / 4096 % 64, 128 + n / 64 % 64, 128 + n % 64]

/-- UTF-8 encoding of a string, as a byte list. -/
def utf8Encode (s : String) : List Nat :=
  s.data.flatMap (fun c => utf8Char c.toNat)

/-- `get_hash` (`scraper.py` lines 19-20):
`hashlib.sha256(value.encode("utf-8")).hexdigest()`. -/
def get_hash (value : String) : String :=
  hexdigest (sha256 (utf8Encode value))

/-! ## Records and extraction (`scrape_page`, lines 33-40)

A scraped row is a `name`/`price`/`hash` triple of strings, exactly the
columns the DataFrame carries. Extraction strips whitespace from an element's
inner text and substitutes `""` when the element is absent, then fingerprints
`name + "|" + price`. -/

/-- One row of the scraped DataFrame: columns `name`, `price`, `hash`. -/
structure Row where
  name : String
  price : String
  hash : String
deriving DecidableEq

/-- A DataFrame with the scraper's columns, as its ordered list of rows. -/
abbrev Table := List Row

/-- The code points Python's `str.strip` removes (`str.isspace` characters:
ASCII whitespace and separator controls, NEL, NBSP and the Unicode space
separators). -/
def pyIsSpace (c : Char) : Bool :=
  [9, 10, 11, 12, 13, 28, 29, 30, 31, 32, 133, 160, 5760,
   8192, 8193, 8194, 8195, 8196, 8197, 8198, 8199, 8200, 8201, 8202,
   8232, 8233, 8239, 8287, 12288].contains c.toNat

/-- Python's `str.strip()`: drop whitespace from both ends. -/
def pyStrip (s : String) : String :=
  String.mk (((s.data.dropWhile pyIsSpace).reverse.dropWhile pyIsSpace).reverse)

/-- One item of the page, as the Fetcher hands it over: the inner text of the
`.product-name` element and of the `.price` element, each `Option` because
`query_selector` returns `None` when the element is missing. -/
structure RawItem where
  name_el : Option String
  price_el : Option String

/-- The per-item body of `scrape_page` (lines 35-40):
`name = name_el.inner_text().strip() if name_el else ""`, likewise for
`price`, then `hash_val = get_hash(name + "|" + price)`. -/
def extract_item (it : RawItem) : Row :=
  let name := match it.name_el with
    | some t => pyStrip t
    | none => ""
  let price := match it.price_el with
    | some t => pyStrip t
    | none => ""
  { name := name, price := price, hash := get_hash (name ++ "|" ++ price) }

/-- The extraction loop of `scrape_page` over all matched items. -/
def scrape_rows (items : List RawItem) : Table :=
  items.map extract_item

/-! ## Delta detection (`detect_deltas`, lines 46-57) -/

/-- The fingerprint set of a table: `set(df["hash"].astype(str).tolist())`.
The `hash` column already holds strings, so `astype(str)` is the identity. -/
def hashSet (df : Table) : Finset String :=
  (df.map Row.hash).toFinset

/-- `detect_deltas(df_new, df_old)`: `added_hashes = new_hashes - old_hashes`,
`removed_hashes = old_hashes - new_hashes`, then
`added = df_new[df_new["hash"].isin(added_hashes)]` and
`removed = df_old[df_old["hash"].isin(removed_hashes)]`. -/
def detect_deltas (df_new df_old : Table) : Table × Table :=
  let old_hashes := hashSet df_old
  let new_hashes := hashSet df_new
  let added_hashes := new_hashes \ old_hashes
  let removed_hashes := old_hashes \ new_hashes
  let added := df_new.filter (fun r => decide (r.hash ∈ added_hashes))
  let removed := df_old.filter (fun r => decide (r.hash ∈ removed_hashes))
  (added, removed)

/-! ## The archive filesystem and `main` (lines 59-107)

The artifact directory is modelled as an association list from path to table:
`open(..., "w")`/`to_csv` replaces the entry at a path, `read_csv` looks it
up. File contents are modelled at table granularity here; the textual CSV
encoding itself is modelled separately below for the round-trip claim.
Persistence failures (`PersistError`) are modelled by a set of paths whose
write raises; a raised write propagates out of `main` and the `__main__`
guard turns any exception into exit code 2 (lines 101-107). -/

/-- The artifact store: path-to-table association list. -/
abbrev FS := List (String × Table)

/-- Write a file: replace the entry at the path, or append a new entry. -/
def fsWrite : FS → String → Table → FS
  | [], p, t => [(p, t)]
  | (q, u) :: rest, p, t =>
      if q = p then (p, t) :: rest else (q, u) :: fsWrite rest p t

/-- Read a file, `none` when absent. -/
def fsRead : FS → String → Option Table
  | [], _ => none
  | (q, u) :: rest, p => if q = p then some u else fsRead rest p

/-- `LATEST_PATH = os.path.join(OUTPUT_DIR, "latest.csv")`. -/
def LATEST_PATH : String := "artifacts/latest.csv"

/-- `ARCHIVE_DIR = os.path.join(OUTPUT_DIR, "archive")`. -/
def ARCHIVE_DIR : String := "artifacts/archive"

/-- The immutable snapshot copy path, `archive/snapshot_<run_id>.csv`. -/
def snapshotPath (runId : String) : String :=
  ARCHIVE_DIR ++ "/snapshot_" ++ runId ++ ".csv"

/-- The added-set delta path, `archive/added_<run_id>.csv`. -/
def addedPath (runId : String) : String :=
  ARCHIVE_DIR ++ "/added_" ++ runId ++ ".csv"

/-- The removed-set delta path, `archive/removed_<run_id>.csv`. -/
def removedPath (runId : String) : String :=
  ARCHIVE_DIR ++ "/removed_" ++ runId ++ ".csv"

/-- A write that may raise: paths in `failSet` throw (the partial store at
the failure is the `error` payload), all others succeed. -/
def writeFile (failSet : List String) (fs : FS) (p : String) (t : Table) :
    Except FS FS :=
  if p ∈ failSet then .error fs else .ok (fsWrite fs p t)

/-- Code-point-lexicographic order on char lists, as Python compares
strings. -/
def charListLt : List Char → List Char → Bool
  | [], [] => false
  | [], _ :: _ => true
  | _ :: _, [] => false
  | c :: cs, d :: ds =>
      if c.toNat < d.toNat then true
      else if d.toNat < c.toNat then false
      else charListLt cs ds

/-- Python string comparison, over the underlying code points. -/
def strLt (s t : String) : Bool := charListLt s.data t.data

/-- Python's `str.startswith`, over the underlying code points. -/
def strStartsWith (s pre : String) : Bool := pre.data.isPrefixOf s.data

/-- Lines 73-77: `sorted([p for p in os.listdir(ARCHIVE_DIR) if
p.startswith("snapshot_")])[-1]` — the lexicographically greatest archived
snapshot path, or `none` when no snapshot has been archived. -/
def latestArchived (fs : FS) : Option String :=
  ((fs.map Prod.fst).filter
      (fun p => strStartsWith p (ARCHIVE_DIR ++ "/snapshot_"))).foldl
    (fun acc p =>
      match acc with
      | none => some p
      | some q => if strLt q p then some p else some q)
    none

/-- Lines 97-98: archive the new snapshot under its run id. An existing entry
at the same path is replaced, as `to_csv` replaces an existing file. -/
def archive (fs : FS) (df : Table) (runId : String) : FS :=
  fsWrite fs (snapshotPath runId) df

/-- Lines 84-94: write `added_<ts>.csv` when the added set is non-empty and
`removed_<ts>.csv` when the removed set is non-empty; when both are empty
only "No changes detected." is logged and nothing is written. -/
def archive_delta (failSet : List String) (fs : FS) (added removed : Table)
    (timestamp : String) : Except FS FS :=
  if added ≠ [] ∨ removed ≠ [] then
    match (if added ≠ [] then writeFile failSet fs (addedPath timestamp) added
           else .ok fs) with
    | .error fsE => .error fsE
    | .ok fsA =>
        if removed ≠ [] then
          writeFile failSet fsA (removedPath timestamp) removed
        else .ok fsA
  else .ok fs

/-- Lines 73-80 of `main`: read the newest archived snapshot back from the
store, or take an empty table when no snapshot has ever been archived. -/
def df_old_of (fs1 : FS) : Table :=
  match latestArchived fs1 with
  | some p => (fsRead fs1 p).getD []
  | none => []

/-- `main` (lines 59-99) wrapped in the `__main__` guard (lines 101-107):
given the initial store, the fetch outcome (`scrape_page` either raises or
yields the hashed rows), the run timestamp, and the set of failing write
paths, returns the final store and the process exit code. A fetch error is
re-raised (line 64) before anything is written; then `latest.csv` is
written, the newest archived snapshot (or an empty table) is diffed against
the new one, the delta files are conditionally written, and the snapshot is
archived; any raised step exits with code 2 and the store as written so
far, completion exits 0. The line-72 existence-and-size guard always holds
after the `latest.csv` write, a written CSV never being empty. -/
def main (fs0 : FS) (fetched : Except Unit Table) (timestamp : String)
    (failSet : List String) : FS × Nat :=
  match fetched with
  | .error _ => (fs0, 2)
  | .ok df_new =>
    match writeFile failSet fs0 LATEST_PATH df_new with
    | .error fsE => (fsE, 2)
    | .ok fs1 =>
      match archive_delta failSet fs1 (detect_deltas df_new (df_old_of fs1)).1
          (detect_deltas df_new (df_old_of fs1)).2 timestamp with
      | .error fsE => (fsE, 2)
      | .ok fs2 =>
        match writeFile failSet fs2 (snapshotPath timestamp) df_new with
        | .error fsE => (fsE, 2)
        | .ok fs3 => (fs3, 0)

/-! ## The tabular artifact format

`df.to_csv(path, index=False)` writes a header row `name,price,hash` and one
comma-separated line per row, quoting a field (and doubling its inner quotes)
exactly when it contains a delimiter, a quote character or a line break
(`csv.QUOTE_MINIMAL`, the pandas default). `pd.read_csv(path)` parses the
text back and then coerces columns: a field matching one of the default NA
markers (the empty field among them) becomes `NaN`; a column whose values all
look numeric becomes a numeric dtype; a column of `True`/`False` markers
becomes boolean; everything else stays a string. Both directions are modelled
below; the reader's carriage-return handling is simplified to an ordinary
character, which is sound for everything this writer emits because the writer
always quotes fields containing one. -/

/-- A field must be quoted when it contains the delimiter, the quote
character or a line break (`QUOTE_MINIMAL`). -/
def needsQuote (s : String) : Bool :=
  s.data.any (fun c => c = ',' || c = '"' || c = '\n' || c = '\r')

/-- Double every quote character, as CSV quoting escapes them. -/
def escapeChars : List Char → List Char
  | [] => []
  | c :: rest =>
      if c = '"' then '"' :: '"' :: escapeChars rest else c :: escapeChars rest

/-- Render one field, quoting it only when needed. -/
def renderField (s : String) : List Char :=
  if needsQuote s then '"' :: (escapeChars s.data ++ ['"']) else s.data

/-- Render one row: three fields joined with commas, newline-terminated. -/
def renderRow (r : Row) : List Char :=
  renderField r.name ++ ',' :: (renderField r.price ++ ',' :: (renderField r.hash ++ ['\n']))

/-- `df.to_csv(path, index=False)`: the header row, then every data row. -/
def to_csv (df : Table) : List Char :=
  renderRow { name := "name", price := "price", hash := "hash" } ++ df.flatMap renderRow

/-- The CSV scanner. `mode` is 0 outside quotes, 1 inside quotes, 2 right
after a quote character seen inside quotes (either the closing quote or the
first half of an escaped one). `field` is the current field, `row` the fields
finished on the current line, `rows` the finished lines. -/
def parseAux : Nat → List Char → List Char → List (List Char) →
    List (List (List Char)) → List (List (List Char))
  | mode, [], field, row, rows =>
      if mode = 0 ∧ field = [] ∧ row = [] then rows else rows ++ [row ++ [field]]
  | mode, c :: rest, field, row, rows =>
      if mode = 1 then
        if c = '"' then parseAux 2 rest field row rows
        else parseAux 1 rest (field ++ [c]) row rows
      else if mode = 2 ∧ c = '"' then parseAux 1 rest (field ++ ['"']) row rows
      else if c = ',' then parseAux 0 rest [] (row ++ [field]) rows
      else if c = '\n' then parseAux 0 rest [] [] (rows ++ [row ++ [field]])
      else if c = '"' ∧ field = [] ∧ mode = 0 then parseAux 1 rest field row rows
      else parseAux 0 rest (field ++ [c]) row rows

/-- Parse CSV text into its lines of raw string fields. -/
def parseCSV (cs : List Char) : List (List String) :=
  (parseAux 0 cs [] [] []).map (fun row => row.map String.mk)

/-- The default `read_csv` NA markers (`na_values`); an empty field is one of
them, which is how an empty string comes back as `NaN`. -/
def naStrings : List String :=
  ["", "#N/A", "#N/A N/A", "#NA", "-1.#IND", "-1.#QNAN", "-NaN", "-nan",
   "1.#IND", "1.#QNAN", "<NA>", "N/A", "NA", "NULL", "NaN", "None", "n/a",
   "nan", "null"]

/-- Strip one leading sign character. -/
def dropSign : List Char → List Char
  | '+' :: r => r
  | '-' :: r => r
  | l => l

/-- Lowercase an ASCII letter, leave every other character alone. -/
def asciiLower (c : Char) : Char :=
  if 65 ≤ c.toNat ∧ c.toNat ≤ 90 then Char.ofNat (c.toNat + 32) else c

/-- ASCII-lowercase a character list (for the reader's case-insensitive
markers). -/
def lowerStr (l : List Char) : List Char :=
  l.map asciiLower

/-- The whitespace the reader's numeric converters skip (C `isspace`:
space, tab, line feed, vertical tab, form feed, carriage return). -/
def cIsSpace (c : Char) : Bool :=
  [32, 9, 10, 11, 12, 13].contains c.toNat

/-- Strip converter-skipped whitespace from both ends of a field. -/
def stripWS (l : List Char) : List Char :=
  ((l.dropWhile cIsSpace).reverse.dropWhile cIsSpace).reverse

/-- A non-empty run of decimal digits. -/
def digitsOnly (l : List Char) : Bool :=
  !l.isEmpty && l.all Char.isDigit

/-- A field the reader parses as an integer: optional sign then digits, with
surrounding whitespace skipped as the integer converter does. -/
def isIntLike (s : String) : Bool :=
  digitsOnly (dropSign (stripWS s.data))

/-- Split at the first exponent marker. -/
def splitExp : List Char → List Char × Option (List Char)
  | [] => ([], none)
  | c :: rest =>
      if c = 'e' ∨ c = 'E' then ([], some rest)
      else
        let p := splitExp rest
        (c :: p.1, p.2)

/-- Digits with at most one decimal point, at least one digit. -/
def isMantissa (l : List Char) : Bool :=
  l.all (fun c => c.isDigit || c = '.') && l.count '.' ≤ 1 && l.any Char.isDigit

/-- The case-insensitive infinity and not-a-number spellings the reader's
float converter accepts after an optional sign. -/
def isInfNanLike (l : List Char) : Bool :=
  lowerStr l == ['i', 'n', 'f'] ||
  lowerStr l == ['i', 'n', 'f', 'i', 'n', 'i', 't', 'y'] ||
  lowerStr l == ['n', 'a', 'n']

/-- A field the reader parses as a float: after skipping surrounding
whitespace and an optional sign, either a case-insensitive `inf`, `infinity`
or `nan` spelling, or a mantissa with an optional signed integer exponent. -/
def isFloatLike (s : String) : Bool :=
  let core := dropSign (stripWS s.data)
  if isInfNanLike core then true
  else
    match splitExp core with
    | (m, none) => isMantissa m
    | (m, some e) => isMantissa m && digitsOnly (dropSign e)

/-- A field the reader parses as a boolean: a case-insensitive variant of
`True` or `False` (whitespace-tolerant, like the other converters). -/
def isBoolLike (s : String) : Bool :=
  lowerStr (stripWS s.data) == ['t', 'r', 'u', 'e'] ||
  lowerStr (stripWS s.data) == ['f', 'a', 'l', 's', 'e']

/-- A value as it comes back out of `read_csv`: `NaN`, a numeric cell (the
payload records the source text), a boolean cell, or an untouched string. -/
inductive CSVValue where
  | nanV : CSVValue
  | numV : String → CSVValue
  | boolV : String → CSVValue
  | strV : String → CSVValue
deriving DecidableEq

/-- The reader's per-column coercion: NA markers become `NaN` everywhere; a
column whose values are all boolean markers (NA aside, with at least one
marker) is coerced to booleans; a column whose values all look numeric (NA
aside) is coerced to a numeric dtype; anything else stays a string. -/
def convertColumn (vs : List String) : List CSVValue :=
  let isNA := fun v => naStrings.contains v
  let colBool := vs.all (fun v => isBoolLike v || isNA v) && vs.any isBoolLike
  let colNum := vs.all (fun v => isNA v || isIntLike v || isFloatLike v)
  vs.map (fun v =>
    if isNA v then .nanV
    else if colBool then .boolV v
    else if colNum then .numV v
    else .strV v)

/-- `pd.read_csv` on a file with this writer's header: parse the text, check
the header and the row shape, then coerce each column. Returns the rows as
triples of read-back cell values. -/
def read_csv (cs : List Char) : Option (List (CSVValue × CSVValue × CSVValue)) :=
  let t := parseCSV cs
  if t.head? = some ["name", "price", "hash"] ∧ t.tail.all (fun r => r.length = 3) then
    let c1 := convertColumn (t.tail.map (fun r => r.getD 0 ""))
    let c2 := convertColumn (t.tail.map (fun r => r.getD 1 ""))
    let c3 := convertColumn (t.tail.map (fun r => r.getD 2 ""))
    some ((c1.zip (c2.zip c3)).map (fun p => (p.1, p.2.1, p.2.2)))
  else none

/-- Round trip through the artifact format: reading back what was written
yields every cell as the untouched string it came from. -/
def roundTrips (df : Table) : Prop :=
  read_csv (to_csv df) =
    some (df.map (fun r => (CSVValue.strV r.name, CSVValue.strV r.price, CSVValue.strV r.hash)))

/-- Sanity check of the CSV model: a field with a comma and a field with a
quote are quoted and escaped on the way out and recovered on the way back. -/
theorem csv_quoting_example :
    parseCSV (to_csv [{ name := "a,b", price := "c\"d", hash := "h" }]) =
      [["name", "price", "hash"], ["a,b", "c\"d", "h"]] := by
  decide

/-- Sanity check of the SHA-256 embedding against the standard test vector
for the empty message. -/
theorem sha256_empty_vector :
    get_hash "" = "e3b0c44298fc1c149afbf4c8996fb92427ae41e4649b934ca495991b7852b855" := by
  decide

/-- Sanity check of the SHA-256 embedding against the standard `"abc"`
test vector, which exercises UTF-8 encoding, padding and compression. -/
theorem sha256_abc_vector :
    get_hash "abc" = "ba7816bf8f01cfea414140de5dae2223b00361a396177a9cb410ff61f20015ad" := by
  decide

/-! ## Helper lemmas -/

/-- A row's fingerprint is in its table's fingerprint set. -/
lemma mem_hashSet_of_mem {df : Table} {r : Row} (h : r ∈ df) :
    r.hash ∈ hashSet df := by
  simp only [hashSet, List.mem_toFinset, List.mem_map]
  exact ⟨r, h, rfl⟩

/-- Membership in the added side of a delta. -/
lemma mem_detect_deltas_added {df_new df_old : Table} {r : Row} :
    r ∈ (detect_deltas df_new df_old).1 ↔
      r ∈ df_new ∧ r.hash ∈ hashSet df_new \ hashSet df_old := by
  simp [detect_deltas, List.mem_filter]

/-- Membership in the removed side of a delta. -/
lemma mem_detect_deltas_removed {df_new df_old : Table} {r : Row} :
    r ∈ (detect_deltas df_new df_old).2 ↔
      r ∈ df_old ∧ r.hash ∈ hashSet df_old \ hashSet df_new := by
  simp [detect_deltas, List.mem_filter]

/-- Sample row: the spec scenario's run-1 record. -/
def rowA : Row := { name := "A", price := "10", hash := "h10" }

/-- Sample row: the spec scenario's run-2 record, same name, new price. -/
def rowB : Row := { name := "A", price := "12", hash := "h12" }

/-! ## The claims -/

/-- C1: `detect_deltas` returns as added exactly the rows of the new table
whose fingerprint lies in the set difference new-fingerprints minus
old-fingerprints, as removed exactly the rows of the old table whose
fingerprint lies in old minus new, and a fingerprint present in both tables
puts its rows in neither side. -/
theorem C1_delta_set_difference (df_new df_old : Table) (r : Row) :
    (r ∈ (detect_deltas df_new df_old).1 ↔
        r ∈ df_new ∧ r.hash ∈ hashSet df_new \ hashSet df_old) ∧
    (r ∈ (detect_deltas df_new df_old).2 ↔
        r ∈ df_old ∧ r.hash ∈ hashSet df_old \ hashSet df_new) ∧
    (r.hash ∈ hashSet df_new → r.hash ∈ hashSet df_old →
        r ∉ (detect_deltas df_new df_old).1 ∧ r ∉ (detect_deltas df_new df_old).2) := by
  refine ⟨mem_detect_deltas_added, mem_detect_deltas_removed, fun hn ho => ⟨?_, ?_⟩⟩
  · intro hmem
    exact (Finset.mem_sdiff.mp (mem_detect_deltas_added.mp hmem).2).2 ho
  · intro hmem
    exact (Finset.mem_sdiff.mp (mem_detect_deltas_removed.mp hmem).2).2 hn

/-- Witness for C1 at a concrete pair of snapshots sharing the fingerprint
of `rowA`: the shared row lands in neither side. -/
theorem C1_delta_set_difference_witness :
    rowA ∉ (detect_deltas [rowA, rowB] [rowA]).1 ∧
      rowA ∉ (detect_deltas [rowA, rowB] [rowA]).2 :=
  (C1_delta_set_difference [rowA, rowB] [rowA] rowA).2.2 (by decide) (by decide)

/-- C2: diffing against an empty old snapshot marks every new record added
and nothing removed; diffing an empty new snapshot marks every old record
removed and nothing added; diffing a snapshot against itself marks nothing
at all. -/
theorem C2_delta_identities (A B : Table) :
    detect_deltas A [] = (A, []) ∧
    detect_deltas [] B = ([], B) ∧
    detect_deltas A A = ([], []) := by
  refine ⟨?_, ?_, ?_⟩
  · simp only [detect_deltas, hashSet, List.map_nil, List.toFinset_nil,
      Finset.sdiff_empty, Finset.empty_sdiff, List.filter_nil, Prod.mk.injEq,
      and_true]
    exact List.filter_eq_self.mpr fun r hr => by
      simp only [decide_eq_true_eq, Finset.mem_sdiff, hashSet, List.mem_toFinset,
        List.mem_map, List.map_nil, List.toFinset_nil, Finset.not_mem_empty,
        not_false_eq_true, and_true]
      exact ⟨r, hr, rfl⟩
  · simp only [detect_deltas, hashSet, List.map_nil, List.toFinset_nil,
      Finset.sdiff_empty, Finset.empty_sdiff, List.filter_nil, Prod.mk.injEq,
      true_and]
    exact List.filter_eq_self.mpr fun r hr => by
      simp only [decide_eq_true_eq, Finset.mem_sdiff, hashSet, List.mem_toFinset,
        List.mem_map, List.map_nil, List.toFinset_nil, Finset.not_mem_empty,
        not_false_eq_true, and_true]
      exact ⟨r, hr, rfl⟩
  · simp [detect_deltas]

/-- C6: the record fingerprint is deterministic. In this embedding
`get_hash` is a pure function of its input string — it reads no process
state, seed or clock — so two evaluations on the same field mapping, within
one run or across process restarts, are two applications of one function to
equal arguments. -/
theorem C6_get_hash_deterministic (f g : String) (h : f = g) :
    get_hash f = get_hash g := by
  rw [h]

/-- Witness for C6 at the concrete field concatenation of the spec
scenario's record. -/
theorem C6_get_hash_deterministic_witness :
    get_hash "A|10" = get_hash "A|10" :=
  C6_get_hash_deterministic "A|10" "A|10" rfl

/-- C7: extraction trims whitespace from each element's inner text, replaces
a missing element by the explicit empty-string placeholder rather than
skipping the field, and fingerprints every item — the fingerprint is the
total function `get_hash` applied to the (trimmed or substituted) fields, so
hashing cannot fail and a missing field is a distinguishable, hashable
state. -/
theorem C7_extraction_normalizes (s p : String) :
    (extract_item { name_el := none, price_el := some p }).name = "" ∧
    (extract_item { name_el := some s, price_el := some p }).name = pyStrip s ∧
    (extract_item { name_el := some s, price_el := none }).price = "" ∧
    (extract_item { name_el := some s, price_el := some p }).price = pyStrip p ∧
    ∀ it : RawItem, (extract_item it).hash =
      get_hash ((extract_item it).name ++ "|" ++ (extract_item it).price) := by
  refine ⟨rfl, rfl, rfl, rfl, fun it => ?_⟩
  cases it with
  | mk n q => cases n <;> cases q <;> rfl

/-- The unchanged records of `A` relative to `B`: those rows of `A` whose
fingerprint also occurs in `B` (the claim's own definition). -/
def unchanged (A B : Table) : Table :=
  A.filter (fun r => decide (r.hash ∈ hashSet B))

/-- C9: the fingerprints of the added side are disjoint from the old
snapshot's fingerprints, and the added rows together with the unchanged rows
partition the new snapshot — their concatenation is a permutation of it. -/
theorem C9_added_complement (A B : Table) :
    (∀ h ∈ hashSet (detect_deltas A B).1, h ∉ hashSet B) ∧
    ((detect_deltas A B).1 ++ unchanged A B).Perm A := by
  constructor
  · intro h hmem
    simp only [hashSet, List.mem_toFinset, List.mem_map] at hmem
    obtain ⟨r, hr, hrh⟩ := hmem
    subst hrh
    exact (Finset.mem_sdiff.mp (mem_detect_deltas_added.mp hr).2).2
  · have hadded : (detect_deltas A B).1 =
        A.filter (fun r => !decide (r.hash ∈ hashSet B)) := by
      simp only [detect_deltas]
      refine List.filter_congr fun r hr => ?_
      simp [Finset.mem_sdiff, mem_hashSet_of_mem hr]
    rw [hadded, unchanged]
    exact (List.perm_append_comm.trans
      (List.filter_append_perm (fun r => decide (r.hash ∈ hashSet B)) A))

/-- Witness for C9 at concrete snapshots: the changed row's fingerprint is
absent from the old snapshot, and the partition law holds there. -/
theorem C9_added_complement_witness :
    ("h12" ∉ hashSet [rowA]) ∧
      ((detect_deltas [rowB] [rowA]).1 ++ unchanged [rowB] [rowA]).Perm [rowB] :=
  ⟨(C9_added_complement [rowB] [rowA]).1 "h12" (by decide),
   (C9_added_complement [rowB] [rowA]).2⟩

/-- C10: the fingerprint joins the fields with a single `"|"`, so two
extracted records with different field values can share a fingerprint — name
`"a|"` with price `"b"` and name `"a"` with price `"|b"` both hash
`"a||b"` — and a pair of snapshots holding one each is invisible to the
delta computation in both directions. -/
theorem C10_separator_collision :
    ∃ r1 r2 : Row,
      (r1.name, r1.price) ≠ (r2.name, r2.price) ∧
      r1.hash = r2.hash ∧
      detect_deltas [r1] [r2] = ([], []) ∧
      detect_deltas [r2] [r1] = ([], []) := by
  refine ⟨extract_item { name_el := some "a|", price_el := some "b" },
          extract_item { name_el := some "a", price_el := some "|b" },
          by decide, ?_, ?_, ?_⟩
  · show get_hash ("a|" ++ "|" ++ "b") = get_hash ("a" ++ "|" ++ "|b")
    rfl
  · have h : (extract_item { name_el := some "a|", price_el := some "b" }).hash =
        (extract_item { name_el := some "a", price_el := some "|b" }).hash := by
      show get_hash ("a|" ++ "|" ++ "b") = get_hash ("a" ++ "|" ++ "|b")
      rfl
    simp [detect_deltas, hashSet, h]
  · have h : (extract_item { name_el := some "a|", price_el := some "b" }).hash =
        (extract_item { name_el := some "a", price_el := some "|b" }).hash := by
      show get_hash ("a|" ++ "|" ++ "b") = get_hash ("a" ++ "|" ++ "|b")
      rfl
    simp [detect_deltas, hashSet, h]

/-- Reading back a path just written yields the written table. -/
lemma fsRead_fsWrite_self (fs : FS) (p : String) (t : Table) :
    fsRead (fsWrite fs p t) p = some t := by
  induction fs with
  | nil => simp [fsWrite, fsRead]
  | cons e rest ih =>
      obtain ⟨q, u⟩ := e
      by_cases h : q = p
      · simp [fsWrite, fsRead, h]
      · simp [fsWrite, fsRead, h, ih]

/-- Writing one path leaves every other path's content unchanged. -/
lemma fsRead_fsWrite_ne (fs : FS) (p q : String) (t : Table) (h : q ≠ p) :
    fsRead (fsWrite fs p t) q = fsRead fs q := by
  induction fs with
  | nil =>
      simp only [fsWrite, fsRead]
      rw [if_neg (fun hc : p = q => h hc.symm)]
  | cons e rest ih =>
      obtain ⟨q', u⟩ := e
      simp only [fsWrite]
      by_cases h' : q' = p
      · subst h'
        rw [if_pos rfl]
        simp only [fsRead]
        rw [if_neg (fun hc : q' = q => h hc.symm),
          if_neg (fun hc : q' = q => h hc.symm)]
      · rw [if_neg h']
        simp only [fsRead]
        by_cases h2 : q' = q
        · rw [if_pos h2, if_pos h2]
        · rw [if_neg h2, if_neg h2]
          exact ih

/-- Distinct run ids give distinct snapshot archive paths. -/
lemma snapshotPath_inj {r1 r2 : String} (h : snapshotPath r1 = snapshotPath r2) :
    r1 = r2 := by
  have hd := congrArg String.data h
  simp only [snapshotPath, ARCHIVE_DIR, String.data_append, List.append_assoc] at hd
  exact String.ext (List.append_cancel_right (List.append_cancel_left
    (List.append_cancel_left hd)))

/-- The added-set and removed-set paths of one run differ. -/
lemma addedPath_ne_removedPath (ts : String) : addedPath ts ≠ removedPath ts := by
  intro h
  have hl := congrArg String.length h
  simp only [addedPath, removedPath, ARCHIVE_DIR, String.length_append,
    show ("/added_" : String).length = 7 from rfl,
    show ("/removed_" : String).length = 9 from rfl] at hl
  omega

/-- C3 counterexample: the claim demands that a second archive write under
the same run id be disambiguated rather than silently replace the first, but
archiving twice under one run id leaves a single entry holding the second
table — the first archived snapshot is gone. -/
theorem C3_same_run_id_overwrites :
    fsRead (archive (archive [] [rowA] "20240101_120000") [rowB] "20240101_120000")
        (snapshotPath "20240101_120000") = some [rowB] ∧
    [rowB] ≠ [rowA] ∧
    archive (archive [] [rowA] "20240101_120000") [rowB] "20240101_120000" =
      [(snapshotPath "20240101_120000", [rowB])] := by
  refine ⟨?_, by decide, ?_⟩ <;> decide

/-- C3 amended: archiving under distinct run ids never removes or mutates a
prior archived entry — the earlier snapshot still reads back intact, and any
path other than the one being written is untouched — but a second archive
write under the *same* run id silently replaces the first. -/
theorem C3_archive_append_only (fs : FS) (df1 df2 : Table) (r1 r2 : String)
    (h : r1 ≠ r2) :
    fsRead (archive fs df1 r1) (snapshotPath r1) = some df1 ∧
    fsRead (archive (archive fs df1 r1) df2 r2) (snapshotPath r1) = some df1 ∧
    (∀ p, p ≠ snapshotPath r2 →
      fsRead (archive (archive fs df1 r1) df2 r2) p =
        fsRead (archive fs df1 r1) p) := by
  have hne : snapshotPath r1 ≠ snapshotPath r2 := fun hc => h (snapshotPath_inj hc)
  refine ⟨fsRead_fsWrite_self fs (snapshotPath r1) df1, ?_, ?_⟩
  · rw [archive, fsRead_fsWrite_ne _ _ _ _ hne]
    exact fsRead_fsWrite_self fs (snapshotPath r1) df1
  · intro p hp
    exact fsRead_fsWrite_ne _ _ _ _ hp

/-- Witness for C3 amended at two concrete runs with distinct run ids. -/
theorem C3_archive_append_only_witness :
    fsRead (archive [] [rowA] "20240101_120000") (snapshotPath "20240101_120000") =
        some [rowA] ∧
    fsRead (archive (archive [] [rowA] "20240101_120000") [rowB] "20240102_120000")
        (snapshotPath "20240101_120000") = some [rowA] ∧
    (∀ p, p ≠ snapshotPath "20240102_120000" →
      fsRead (archive (archive [] [rowA] "20240101_120000") [rowB] "20240102_120000") p =
        fsRead (archive [] [rowA] "20240101_120000") p) :=
  C3_archive_append_only [] [rowA] [rowB] "20240101_120000" "20240102_120000"
    (by decide)

/-- C4: the delta-archiving step writes the added-set file only when the
added set is non-empty and the removed-set file only when the removed set is
non-empty; with both sides empty it writes nothing at all; and every file it
does write holds a non-zero number of rows. -/
theorem C4_no_empty_delta_artifacts (fs : FS) (added removed : Table) (ts : String) :
    ∃ fs2, archive_delta [] fs added removed ts = Except.ok fs2 ∧
      (added = [] ∧ removed = [] → fs2 = fs) ∧
      (added ≠ [] → fsRead fs2 (addedPath ts) = some added) ∧
      (added = [] → fsRead fs2 (addedPath ts) = fsRead fs (addedPath ts)) ∧
      (removed ≠ [] → fsRead fs2 (removedPath ts) = some removed) ∧
      (removed = [] → fsRead fs2 (removedPath ts) = fsRead fs (removedPath ts)) ∧
      (∀ p, fsRead fs2 p ≠ fsRead fs p → ∃ t, fsRead fs2 p = some t ∧ t ≠ []) := by
  have hpath := addedPath_ne_removedPath ts
  by_cases ha : added = [] <;> by_cases hr : removed = []
  · refine ⟨fs, by simp [archive_delta, ha, hr], fun _ => rfl,
      fun hc => absurd ha hc, fun _ => rfl, fun hc => absurd hr hc, fun _ => rfl,
      fun p hp => absurd rfl hp⟩
  · refine ⟨fsWrite fs (removedPath ts) removed, ?_, ?_, fun hc => absurd ha hc,
      fun _ => ?_, fun _ => ?_, fun hc => absurd hc hr, ?_⟩
    · simp [archive_delta, ha, hr, writeFile]
    · rintro ⟨-, hc⟩
      exact absurd hc hr
    · exact fsRead_fsWrite_ne fs _ _ removed hpath
    · exact fsRead_fsWrite_self fs _ removed
    · intro p hp
      by_cases hpr : p = removedPath ts
      · subst hpr
        exact ⟨removed, fsRead_fsWrite_self fs _ removed, hr⟩
      · exact absurd (fsRead_fsWrite_ne fs _ _ removed hpr) hp
  · refine ⟨fsWrite fs (addedPath ts) added, ?_, ?_, fun _ => ?_,
      fun hc => absurd hc ha, fun hc => absurd hr hc, fun _ => ?_, ?_⟩
    · simp [archive_delta, ha, hr, writeFile]
    · rintro ⟨hc, -⟩
      exact absurd hc ha
    · exact fsRead_fsWrite_self fs _ added
    · exact fsRead_fsWrite_ne fs _ _ added hpath.symm
    · intro p hp
      by_cases hpa : p = addedPath ts
      · subst hpa
        exact ⟨added, fsRead_fsWrite_self fs _ added, ha⟩
      · exact absurd (fsRead_fsWrite_ne fs _ _ added hpa) hp
  · refine ⟨fsWrite (fsWrite fs (addedPath ts) added) (removedPath ts) removed,
      ?_, ?_, fun _ => ?_, fun hc => absurd hc ha, fun _ => ?_,
      fun hc => absurd hc hr, ?_⟩
    · simp [archive_delta, ha, hr, writeFile]
    · rintro ⟨hc, -⟩
      exact absurd hc ha
    · rw [fsRead_fsWrite_ne _ _ _ removed hpath]
      exact fsRead_fsWrite_self fs _ added
    · exact fsRead_fsWrite_self _ _ removed
    · intro p hp
      by_cases hpr : p = removedPath ts
      · subst hpr
        exact ⟨removed, fsRead_fsWrite_self _ _ removed, hr⟩
      · rw [fsRead_fsWrite_ne _ _ _ removed hpr] at hp ⊢
        by_cases hpa : p = addedPath ts
        · subst hpa
          exact ⟨added, fsRead_fsWrite_self fs _ added, ha⟩
        · exact absurd (fsRead_fsWrite_ne fs _ _ added hpa) hp

/-- Witness for C4 at a concrete run: one added row, nothing removed. -/
theorem C4_no_empty_delta_artifacts_witness :
    ∃ fs2, archive_delta [] [] [rowA] [] "20240101_120000" = Except.ok fs2 ∧
      ([rowA] = [] ∧ ([] : Table) = [] → fs2 = []) ∧
      ([rowA] ≠ [] → fsRead fs2 (addedPath "20240101_120000") = some [rowA]) ∧
      ([rowA] = [] → fsRead fs2 (addedPath "20240101_120000") =
        fsRead [] (addedPath "20240101_120000")) ∧
      (([] : Table) ≠ [] → fsRead fs2 (removedPath "20240101_120000") = some []) ∧
      (([] : Table) = [] → fsRead fs2 (removedPath "20240101_120000") =
        fsRead [] (removedPath "20240101_120000")) ∧
      (∀ p, fsRead fs2 p ≠ fsRead [] p → ∃ t, fsRead fs2 p = some t ∧ t ≠ []) :=
  C4_no_empty_delta_artifacts [] [rowA] [] "20240101_120000"

/-- With no injected write failure, the delta-archiving step always
completes. -/
lemma archive_delta_nofail (fs : FS) (a r : Table) (ts : String) :
    ∃ fs2, archive_delta [] fs a r ts = Except.ok fs2 := by
  by_cases ha : a = [] <;> by_cases hr : r = [] <;>
    simp [archive_delta, writeFile, ha, hr]

/-- With no injected write failure, `main` on a successful fetch exits 0. -/
lemma main_nofail_exit_zero (fs : FS) (df : Table) (ts : String) :
    (main fs (Except.ok df) ts []).2 = 0 := by
  obtain ⟨fs2, h2⟩ := archive_delta_nofail (fsWrite fs LATEST_PATH df)
    (detect_deltas df (df_old_of (fsWrite fs LATEST_PATH df))).1
    (detect_deltas df (df_old_of (fsWrite fs LATEST_PATH df))).2 ts
  simp [main, writeFile, h2]

/-- The initial store for the C5 scenario: a prior successful run archived
`[rowA]` and promoted it to `latest.csv`. -/
def fs0C5 : FS :=
  [(LATEST_PATH, [rowA]), (snapshotPath "20240101_000000", [rowA])]

/-- The C5 scenario's failing run: the fetch succeeds with `[rowB]`, the
`latest.csv` and delta writes succeed, but the snapshot-archive write
raises. -/
def runC5 : FS × Nat :=
  main fs0C5 (Except.ok [rowB]) "20240102_000000"
    [snapshotPath "20240102_000000"]

/-- C5 counterexample: the claim says every run with a fatal error exits
non-zero *and* leaves the archive state — the `latest` pointer included —
unchanged. In this run the snapshot-archive write fails after `latest.csv`
has already been rewritten: the process exits 2, yet `latest.csv` now holds
the new table instead of the last successful run's. -/
theorem C5_persist_failure_mutates_latest :
    runC5.2 = 2 ∧
    fsRead fs0C5 LATEST_PATH = some [rowA] ∧
    fsRead runC5.1 LATEST_PATH = some [rowB] ∧
    some ([rowB] : Table) ≠ some [rowA] := by
  refine ⟨?_, ?_, ?_, by decide⟩ <;> decide

/-- C5 amended: a fetch failure exits non-zero with the store unchanged
from the last successful run, and a failure-free run — the no-changes
outcome included — exits 0; but a persistence failure occurring after the
`latest.csv` write (which the code performs before archiving) exits
non-zero with the `latest` pointer already updated. -/
theorem C5_fetch_failure_clean_exit (fs : FS) (e : Unit) (ts : String)
    (failSet : List String) (df : Table) :
    main fs (Except.error e) ts failSet = (fs, 2) ∧
    (main fs (Except.ok df) ts []).2 = 0 :=
  ⟨rfl, main_nofail_exit_zero fs df ts⟩

/-- Witness for C5 amended: a concrete fetch failure, and a concrete
unchanged re-run of the same table exiting 0. -/
theorem C5_fetch_failure_clean_exit_witness :
    main fs0C5 (Except.error ()) "20240102_000000" [] = (fs0C5, 2) ∧
    (main fs0C5 (Except.ok [rowA]) "20240102_000000" []).2 = 0 :=
  C5_fetch_failure_clean_exit fs0C5 () "20240102_000000" [] [rowA]

/-! ## Round trip of the artifact format

The writer is inverted: scanning what `to_csv` emits recovers the header and
every row's raw fields exactly, whatever the field contents. The reader's
column coercions are then the only source of round-trip loss. -/

/-- Scanning ordinary characters (no delimiter, line break or quote) in
unquoted mode accumulates them onto the current field. -/
lemma parseAux_accum : ∀ (f : List Char),
    (∀ c ∈ f, c ≠ ',' ∧ c ≠ '\n' ∧ c ≠ '"') →
    ∀ (tail field : List Char) (row : List (List Char))
      (rows : List (List (List Char))),
    parseAux 0 (f ++ tail) field row rows = parseAux 0 tail (field ++ f) row rows := by
  intro f
  induction f with
  | nil => intro _ tail field row rows; simp
  | cons c f ih =>
      intro hf tail field row rows
      obtain ⟨h1, h2, h3⟩ := hf c (List.mem_cons_self c f)
      have hf2 : ∀ x ∈ f, x ≠ ',' ∧ x ≠ '\n' ∧ x ≠ '"' :=
        fun x hx => hf x (List.mem_cons_of_mem c hx)
      have hstep : parseAux 0 (c :: (f ++ tail)) field row rows
          = parseAux 0 (f ++ tail) (field ++ [c]) row rows := by
        simp [parseAux, h1, h2, h3]
      rw [List.cons_append, hstep, ih hf2 tail (field ++ [c]) row rows]
      simp

/-- Scanning an escaped field body in quoted mode accumulates the original
characters, undoing the quote doubling. -/
lemma parseAux_accum_quoted : ∀ (f : List Char) (tail field : List Char)
    (row : List (List Char)) (rows : List (List (List Char))),
    parseAux 1 (escapeChars f ++ tail) field row rows
      = parseAux 1 tail (field ++ f) row rows := by
  intro f
  induction f with
  | nil => intro tail field row rows; simp [escapeChars]
  | cons c f ih =>
      intro tail field row rows
      by_cases hc : c = '"'
      · subst hc
        rw [show escapeChars ('"' :: f) = '"' :: '"' :: escapeChars f from by
          simp [escapeChars]]
        simp only [List.cons_append]
        rw [show parseAux 1 ('"' :: ('"' :: (escapeChars f ++ tail))) field row rows
            = parseAux 2 ('"' :: (escapeChars f ++ tail)) field row rows from by
          simp [parseAux]]
        rw [show parseAux 2 ('"' :: (escapeChars f ++ tail)) field row rows
            = parseAux 1 (escapeChars f ++ tail) (field ++ ['"']) row rows from by
          simp [parseAux]]
        rw [ih]
        simp
      · rw [show escapeChars (c :: f) = c :: escapeChars f from by
          simp [escapeChars, hc]]
        simp only [List.cons_append]
        rw [show parseAux 1 (c :: (escapeChars f ++ tail)) field row rows
            = parseAux 1 (escapeChars f ++ tail) (field ++ [c]) row rows from by
          simp [parseAux, hc]]
        rw [ih]
        simp

/-- A field that needs no quoting contains no delimiter, line break or
quote. -/
lemma no_special_of_not_needsQuote {s : String} (h : needsQuote s = false) :
    ∀ c ∈ s.data, c ≠ ',' ∧ c ≠ '\n' ∧ c ≠ '"' := by
  intro c hc
  simp only [needsQuote, List.any_eq_false] at h
  have := h c hc
  simp only [Bool.or_eq_true, decide_eq_true_eq, not_or] at this
  exact ⟨this.1.1.1, this.1.2, this.1.1.2⟩

/-- Scanning one rendered field followed by a comma finishes that field with
exactly the original contents. -/
lemma consume_field_comma (s : String) (tail : List Char)
    (row : List (List Char)) (rows : List (List (List Char))) :
    parseAux 0 (renderField s ++ ',' :: tail) [] row rows
      = parseAux 0 tail [] (row ++ [s.data]) rows := by
  by_cases h : needsQuote s = true
  · simp only [renderField, if_pos h, List.cons_append, List.append_assoc,
      List.singleton_append, List.nil_append]
    rw [show parseAux 0 ('"' :: (escapeChars s.data ++ ('"' :: ',' :: tail))) [] row rows
        = parseAux 1 (escapeChars s.data ++ ('"' :: ',' :: tail)) [] row rows from by
      simp [parseAux]]
    rw [parseAux_accum_quoted]
    rw [show parseAux 1 ('"' :: ',' :: tail) ([] ++ s.data) row rows
        = parseAux 2 (',' :: tail) ([] ++ s.data) row rows from by simp [parseAux]]
    simp [parseAux]
  · have h2 : needsQuote s = false := by simpa using h
    simp only [renderField, h2, Bool.false_eq_true, if_false]
    rw [parseAux_accum s.data (no_special_of_not_needsQuote h2)]
    simp [parseAux]

/-- Scanning one rendered field followed by a newline finishes the current
row with that field's original contents last. -/
lemma consume_field_newline (s : String) (tail : List Char)
    (row : List (List Char)) (rows : List (List (List Char))) :
    parseAux 0 (renderField s ++ '\n' :: tail) [] row rows
      = parseAux 0 tail [] [] (rows ++ [row ++ [s.data]]) := by
  by_cases h : needsQuote s = true
  · simp only [renderField, if_pos h, List.cons_append, List.append_assoc,
      List.singleton_append, List.nil_append]
    rw [show parseAux 0 ('"' :: (escapeChars s.data ++ ('"' :: '\n' :: tail))) [] row rows
        = parseAux 1 (escapeChars s.data ++ ('"' :: '\n' :: tail)) [] row rows from by
      simp [parseAux]]
    rw [parseAux_accum_quoted]
    rw [show parseAux 1 ('"' :: '\n' :: tail) ([] ++ s.data) row rows
        = parseAux 2 ('\n' :: tail) ([] ++ s.data) row rows from by simp [parseAux]]
    simp [parseAux]
  · have h2 : needsQuote s = false := by simpa using h
    simp only [renderField, h2, Bool.false_eq_true, if_false]
    rw [parseAux_accum s.data (no_special_of_not_needsQuote h2)]
    simp [parseAux]

/-- Scanning one rendered row appends exactly its three raw fields as a
finished line. -/
lemma consume_row (r : Row) (tail : List Char) (rows : List (List (List Char))) :
    parseAux 0 (renderRow r ++ tail) [] [] rows
      = parseAux 0 tail [] [] (rows ++ [[r.name.data, r.price.data, r.hash.data]]) := by
  simp only [renderRow, List.append_assoc, List.cons_append]
  rw [consume_field_comma, consume_field_comma, consume_field_newline]
  simp

/-- Scanning the rendered rows of a table appends exactly their raw fields
as finished lines. -/
lemma consume_rows : ∀ (df : Table) (rows : List (List (List Char))),
    parseAux 0 (df.flatMap renderRow) [] [] rows
      = rows ++ df.map (fun r => [r.name.data, r.price.data, r.hash.data]) := by
  intro df
  induction df with
  | nil => intro rows; simp [parseAux]
  | cons r df ih =>
      intro rows
      rw [show (r :: df).flatMap renderRow = renderRow r ++ df.flatMap renderRow from by
        simp]
      rw [consume_row, ih]
      simp

/-- Parsing what `to_csv` wrote recovers the header line and every row's
fields verbatim, for every table. -/
lemma parseCSV_to_csv (df : Table) :
    parseCSV (to_csv df) =
      ["name", "price", "hash"] :: df.map (fun r => [r.name, r.price, r.hash]) := by
  unfold parseCSV to_csv
  rw [show renderRow { name := "name", price := "price", hash := "hash" } ++
        df.flatMap renderRow
      = (({ name := "name", price := "price", hash := "hash" } : Row) :: df).flatMap
          renderRow from by simp]
  rw [consume_rows]
  simp only [List.nil_append, List.map_cons, List.map_map]
  rfl

/-- A field untouched by every reader coercion: not an NA marker (so in
particular non-empty), not integer-looking, not float-looking, not a boolean
marker. -/
def plainField (v : String) : Bool :=
  !naStrings.contains v && !isIntLike v && !isFloatLike v && !isBoolLike v

/-- Column conversion is the identity (up to the `strV` wrapper) on columns
of plain fields. -/
lemma convertColumn_plain (vs : List String) (h : ∀ v ∈ vs, plainField v = true) :
    convertColumn vs = vs.map CSVValue.strV := by
  have flags : ∀ v ∈ vs, naStrings.contains v = false ∧ isIntLike v = false ∧
      isFloatLike v = false ∧ isBoolLike v = false := by
    intro v hv
    have hp := h v hv
    simp only [plainField, Bool.and_eq_true, Bool.not_eq_true'] at hp
    exact ⟨hp.1.1.1, hp.1.1.2, hp.1.2, hp.2⟩
  unfold convertColumn
  have hAny : vs.any isBoolLike = false :=
    List.any_eq_false.mpr fun v hv => by simp [(flags v hv).2.2.2]
  refine List.map_congr_left fun v hv => ?_
  obtain ⟨hna, hint, hfloat, hbool⟩ := flags v hv
  have hna2 : v ∉ naStrings := by simpa using hna
  have hnum2 : ¬∀ x ∈ vs, (x ∈ naStrings ∨ isIntLike x = true) ∨ isFloatLike x = true := by
    intro hc
    rcases hc v hv with (h1 | h2) | h3
    · exact hna2 h1
    · exact absurd h2 (by simp [hint])
    · exact absurd h3 (by simp [hfloat])
  simp [hAny, hna2, hnum2]

/-- The row the scraper extracts when the name element is missing: the
empty-string placeholder, a price, and the fingerprint of `"|x"`. -/
def rowMissingName : Row :=
  extract_item { name_el := none, price_el := some "x" }

set_option maxRecDepth 8192 in
/-- C8 counterexample: take the snapshot the scraper itself produces for an
item whose name element is missing. Its name field is the empty-string
placeholder; written to CSV it becomes an empty field, and `read_csv` turns
an empty field into `NaN` — the read-back table does not reproduce the
record. -/
theorem C8_empty_field_breaks_roundtrip :
    ¬ roundTrips [rowMissingName] := by
  unfold roundTrips
  decide

/-- C8 amended: the write-then-read round trip reproduces every record and
fingerprint — column order and row content included — for snapshots whose
field values the reader leaves untouched: fields that are not NA markers
(hence non-empty), not integer- or float-looking, and not boolean markers.
Fields needing quoting (embedded commas, quotes, line breaks) are still
reproduced exactly; what breaks the round trip as originally claimed is
only the reader's NA and dtype coercion. -/
theorem C8_roundtrip_plain (df : Table)
    (h : ∀ r ∈ df, plainField r.name = true ∧ plainField r.price = true ∧
      plainField r.hash = true) :
    roundTrips df := by
  unfold roundTrips read_csv
  rw [parseCSV_to_csv]
  simp only [List.head?_cons, List.tail_cons, List.map_map]
  rw [if_pos ?hc]
  case hc =>
    refine ⟨by simp, by simp⟩
  simp only [Function.comp_def, List.getD_cons_zero, List.getD_cons_succ]
  rw [convertColumn_plain (df.map fun r => r.name) ?h1,
      convertColumn_plain (df.map fun r => r.price) ?h2,
      convertColumn_plain (df.map fun r => r.hash) ?h3]
  case h1 =>
    intro v hv
    obtain ⟨r, hr, rfl⟩ := List.mem_map.mp hv
    exact (h r hr).1
  case h2 =>
    intro v hv
    obtain ⟨r, hr, rfl⟩ := List.mem_map.mp hv
    exact (h r hr).2.1
  case h3 =>
    intro v hv
    obtain ⟨r, hr, rfl⟩ := List.mem_map.mp hv
    exact (h r hr).2.2
  simp only [List.map_map, List.zip_map', List.map_map]
  rfl

/-- Witness for C8 amended at a one-row snapshot with plain fields. -/
theorem C8_roundtrip_plain_witness :
    roundTrips [{ name := "A", price := "ten", hash := "habc" }] :=
  C8_roundtrip_plain [{ name := "A", price := "ten", hash := "habc" }] (by decide)

end Scraper
